import Mathlib

/-!
Shallow embedding of `src/core/hle/service/nvdrv/devices/nvhost_nvdec_common.cpp`
(the NVDEC/VIC common device of the yuzu nvdrv service).

Modelling conventions:
* Every record in the ioctl wire format is a sequence of `u32` fields with no
  padding, so flat byte buffers are modelled at 32-bit word granularity: a
  byte offset or byte count in the source corresponds here to the word offset
  or word count obtained by dividing by 4.
* Machine integers are `Nat`; the one truncation in the source,
  `static_cast<u32>(low_addr)`, is `% 4294967296`.
* An out-of-bounds `memcpy` read or write is undefined behavior in the
  source; operations return `Option` results and `none` marks such a path.
* `std::map<GPUVAddr, BufferMap>` is modelled as an association list kept
  sorted by strictly increasing key, which is the iteration order of the
  C++ ordered map.
* The struct layouts live in headers that are not part of this repository
  snapshot; they are modelled from the spec (each such definition says so).
-/

namespace Nvdec

/-- A flat ioctl buffer, as a list of 32-bit words. -/
abbrev Buf := List Nat

namespace NvErrCodes

/-- constexpr u32 Success{}. -/
def Success : Nat := 0

/-- constexpr u32 InvalidInput{static_cast u32 of -22}, i.e. 2^32 - 22. -/
def InvalidInput : Nat := 4294967274

end NvErrCodes

/-- Modelled from the spec: the memory-object record handed out by the nvmap
registry (its header is not under `src/`): a CPU-visible address, a size, the
current device-mapping address (`0` when unmapped) and the allocation-status
flag (`status == Allocated`). -/
structure Object where
  addr : Nat
  size : Nat
  dma_map_addr : Nat
  allocated : Bool
deriving DecidableEq

/-- Modelled from the spec: a Buffer Address Map entry
`(device_address, size, cpu_address, is_allocated)`; the entry's end address
is its start address plus its size. -/
structure BufferMap where
  start_addr : Nat
  size : Nat
  cpu_addr : Nat
  is_allocated : Bool
deriving DecidableEq

def BufferMap.StartAddr (m : BufferMap) : Nat := m.start_addr

def BufferMap.EndAddr (m : BufferMap) : Nat := m.start_addr + m.size

def BufferMap.Size (m : BufferMap) : Nat := m.size

def BufferMap.IsAllocated (m : BufferMap) : Bool := m.is_allocated

/-- The `buffer_mappings` field: `std::map<GPUVAddr, BufferMap>` as a
key-sorted association list. -/
abbrev Mappings := List (Nat × BufferMap)

/-- The well-formedness the C++ ordered map maintains by construction:
entries are sorted by strictly increasing key. -/
def SortedKeys (ms : Mappings) : Prop :=
  ms.Pairwise fun a b => a.1 < b.1

/-- std::map::insert_or_assign on the sorted association list. -/
def insertSorted : Mappings → Nat → BufferMap → Mappings
  | [], k, v => [(k, v)]
  | e :: rest, k, v =>
    if k < e.1 then (k, v) :: e :: rest
    else if k = e.1 then (k, v) :: rest
    else e :: insertSorted rest k v

/-- std::map::find, returning the mapped value. -/
def lookupKey : Mappings → Nat → Option BufferMap
  | [], _ => none
  | e :: rest, k => if e.1 = k then some e.2 else lookupKey rest k

/-- std::map::erase of the entry found at a key (first occurrence). -/
def removeKey : Mappings → Nat → Mappings
  | [], _ => []
  | e :: rest, k => if e.1 = k then rest else e :: removeKey rest k

/-- AddBufferMap: `buffer_mappings.insert_or_assign(gpu_addr,
BufferMap{gpu_addr, size, cpu_addr, is_allocated})`. -/
def AddBufferMap (ms : Mappings) (gpu_addr size cpu_addr : Nat)
    (is_allocated : Bool) : Mappings :=
  insertSorted ms gpu_addr ⟨gpu_addr, size, cpu_addr, is_allocated⟩

/-- RemoveBufferMap: look up `gpu_addr`; absent gives `std::nullopt` and the
map is unchanged; present gives `some size` when the entry `IsAllocated` and
`some 0` otherwise, and the entry is erased. -/
def RemoveBufferMap (ms : Mappings) (gpu_addr : Nat) : Option Nat × Mappings :=
  match lookupKey ms gpu_addr with
  | none => (none, ms)
  | some m =>
      (some (if m.IsAllocated then m.Size else 0), removeKey ms gpu_addr)

/-- Result of `FindBufferMap`. The C++ function declares
`std::optional<BufferMap>` but every normal path returns an engaged optional;
the abnormal path fails `ASSERT(it != buffer_mappings.end())` and then
dereferences the past-the-end iterator, which is undefined behavior. -/
inductive FindResult
  | ok (m : BufferMap)
  | assertUB
deriving DecidableEq

/-- FindBufferMap: `std::find_if` from `begin()` to `upper_bound(gpu_addr)`
testing range containment. On a sorted map that scan range is exactly the
prefix of entries whose key is at most `gpu_addr`. When no scanned entry
contains the address, `find_if` yields `upper_bound(gpu_addr)` itself: if
that is a real entry (the first key strictly above `gpu_addr`) the assert
passes and that entry is returned; if it is `end()` the assert fails and the
dereference is undefined behavior. -/
def FindBufferMap (ms : Mappings) (gpu_addr : Nat) : FindResult :=
  match (ms.takeWhile fun e => decide (e.1 ≤ gpu_addr)).find?
      (fun e => decide (e.2.StartAddr ≤ gpu_addr) && decide (gpu_addr < e.2.EndAddr)) with
  | some e => .ok e.2
  | none =>
      match (ms.dropWhile fun e => decide (e.1 ≤ gpu_addr)).head? with
      | some e => .ok e.2
      | none => .assertUB

/-- The mutable session state the claims need: the nvmap object registry
seen through `GetObject` (handle to object), and `buffer_mappings`. -/
structure DevState where
  objects : Nat → Option Object
  mappings : Mappings

/-- Writing `object->field` back through the registry reference. -/
def updateObj (s : Nat → Option Object) (h : Nat) (o : Object) :
    Nat → Option Object :=
  fun x => if x = h then some o else s x

/-- SpliceVectors: copies `count` records of `width` words each out of
`input` starting at word offset `off`, returning the copied words and the
advanced offset. A read past the end of `input` is undefined behavior in the
source (`none`). -/
def SpliceVectors (input : Buf) (count width off : Nat) :
    Option (List Nat × Nat) :=
  if off + count * width ≤ input.length then
    some ((input.drop off).take (count * width), off + count * width)
  else none

/-- WriteVectors: writes `src` into `dst` at word offset `off`, returning the
updated buffer and the advanced offset. A write past the end of `dst` is
undefined behavior in the source (`none`). -/
def WriteVectors (dst : Buf) (src : List Nat) (off : Nat) :
    Option (Buf × Nat) :=
  if off + src.length ≤ dst.length then
    some (dst.take off ++ src ++ dst.drop (off + src.length), off + src.length)
  else none

/-- Modelled from the spec: the Submit header, four u32 counts. -/
structure IoctlSubmit where
  cmd_buffer_count : Nat
  relocation_count : Nat
  syncpoint_count : Nat
  fence_count : Nat
deriving DecidableEq

/-- The `memcpy(&params, input.data(), sizeof(IoctlSubmit))` decode: four
words; a shorter input is an out-of-bounds read. -/
def decodeSubmitHeader (input : Buf) : Option IoctlSubmit :=
  if 4 ≤ input.length then
    some ⟨input.getD 0 0, input.getD 1 0, input.getD 2 0, input.getD 3 0⟩
  else none

/-- Modelled from the spec: a command-buffer descriptor
`(memory_id, offset, word_count)`, three u32 words. -/
structure CommandBuffer where
  memory_id : Nat
  offset : Nat
  word_count : Nat
deriving DecidableEq

/-- Groups the spliced words of the command-buffer array into descriptors. -/
def toCmdBufs : List Nat → List CommandBuffer
  | a :: b :: c :: rest => ⟨a, b, c⟩ :: toCmdBufs rest
  | _ => []

/-- One forwarded descriptor: the `ReadBlock` source address
`map->StartAddr() + cmd_buffer.offset` and the pushed `word_count`. -/
structure SubmitFwd where
  read_addr : Nat
  word_count : Nat
deriving DecidableEq

/-- The descriptor loop of Submit. Yields the forwarded reads together with
an early-return status when one occurs: a descriptor whose handle does not
resolve runs `ASSERT_OR_EXECUTE(object, return NvErrCodes::InvalidInput)`.
When `FindBufferMap` hits its failing assertion the loop is undefined
behavior (`none`); its `ok` result is always an engaged optional, so the
`if (!map) { ...; return 0; }` branch of the source is never taken. -/
def SubmitLoop (st : DevState) :
    List CommandBuffer → Option (List SubmitFwd × Option Nat)
  | [] => some ([], none)
  | cb :: rest =>
    match st.objects cb.memory_id with
    | none => some ([], some NvErrCodes.InvalidInput)
    | some obj =>
      match FindBufferMap st.mappings obj.dma_map_addr with
      | .assertUB => none
      | .ok m =>
        match SubmitLoop st rest with
        | none => none
        | some (fs, r) =>
            some (⟨m.StartAddr + cb.offset, cb.word_count⟩ :: fs, r)

/-- Submit. The element widths (in words) of the relocation, syncpoint and
fence records are parameters: those structs are in headers outside this
snapshot and the spec does not fix their layout; no claim depends on the
actual widths. Decodes the header, splices the six trailing arrays, runs the
descriptor loop, and on fall-through re-encodes the header and the arrays
other than the fences into the output buffer. An early return from the loop
leaves the output untouched. -/
def Submit (relocW syncW fenceW : Nat) (st : DevState) (input output : Buf) :
    Option (Nat × Buf × List SubmitFwd) :=
  match decodeSubmitHeader input with
  | none => none
  | some params =>
    match SpliceVectors input params.cmd_buffer_count 3 4 with
    | none => none
    | some (cbWords, off1) =>
      match SpliceVectors input params.relocation_count relocW off1 with
      | none => none
      | some (relWords, off2) =>
        match SpliceVectors input params.relocation_count 1 off2 with
        | none => none
        | some (shiftWords, off3) =>
          match SpliceVectors input params.syncpoint_count syncW off3 with
          | none => none
          | some (incrWords, off4) =>
            match SpliceVectors input params.syncpoint_count syncW off4 with
            | none => none
            | some (waitWords, off5) =>
              match SpliceVectors input params.fence_count fenceW off5 with
              | none => none
              | some (_fenceWords, _off6) =>
                match SubmitLoop st (toCmdBufs cbWords) with
                | none => none
                | some (fwds, some status) => some (status, output, fwds)
                | some (fwds, none) =>
                  match WriteVectors output
                      [params.cmd_buffer_count, params.relocation_count,
                       params.syncpoint_count, params.fence_count] 0 with
                  | none => none
                  | some (o1, _) =>
                    match WriteVectors o1 cbWords 4 with
                    | none => none
                    | some (o2, w2) =>
                      match WriteVectors o2 relWords w2 with
                      | none => none
                      | some (o3, w3) =>
                        match WriteVectors o3 shiftWords w3 with
                        | none => none
                        | some (o4, w4) =>
                          match WriteVectors o4 incrWords w4 with
                          | none => none
                          | some (o5, w5) =>
                            match WriteVectors o5 waitWords w5 with
                            | none => none
                            | some (o6, _) =>
                                some (NvErrCodes.Success, o6, fwds)

/-- GetSyncpoint. Modelled from the spec: `IoctlGetSyncpoint` is two u32
words `(param, value)`. The value field is forced to 0 and the record is
re-encoded into the output buffer. -/
def GetSyncpoint (input output : Buf) : Option (Nat × Buf) :=
  if 2 ≤ input.length then
    match WriteVectors output [input.getD 0 0, 0] 0 with
    | none => none
    | some (out, _) => some (NvErrCodes.Success, out)
  else none

/-- GetWaitbase. Modelled from the spec: `IoctlGetWaitbase` is two u32 words
`(param, value)`; the value field is hard coded to 0. -/
def GetWaitbase (input output : Buf) : Option (Nat × Buf) :=
  if 2 ≤ input.length then
    match WriteVectors output [input.getD 0 0, 0] 0 with
    | none => none
    | some (out, _) => some (NvErrCodes.Success, out)
  else none

/-- Modelled from the spec: the MapBuffer and UnmapBuffer header
`IoctlMapBuffer` is a single u32 word, `num_entries`. -/
def decodeMapHeader (input : Buf) : Option Nat :=
  if 1 ≤ input.length then some (input.getD 0 0) else none

/-- Modelled from the spec: a `MapBufferEntry` is two u32 words,
`(map_handle, map_address)`; grouped from the spliced entry words. -/
def toEntries : List Nat → List (Nat × Nat)
  | a :: b :: rest => (a, b) :: toEntries rest
  | _ => []

/-- Flattens updated entries back to words for the output write. -/
def entryWords : List (Nat × Nat) → List Nat
  | [] => []
  | (a, b) :: rest => a :: b :: entryWords rest

/-- The `std::memcpy(output.data(), &params, output.size())` of the
unresolved-handle branch: it copies `output.size()` bytes out of the header
struct, so an output buffer longer than the header reads past the end of the
struct — undefined behavior (`none`). -/
def overreadParams (params : List Nat) (output : Buf) : Option Buf :=
  if output.length ≤ params.length then some (params.take output.length)
  else none

/-- Loop body of MapBuffer for one resolved entry. If the object's
`dma_map_addr` is 0, `MapAllocate32` is called and its result is truncated
to 32 bits and written into the object. If the address is then still 0 the
failure is only logged; otherwise the entry's `map_address` is set to it and
the mapping is registered via `AddBufferMap`. Returns the new state, the
updated entry, and the `MapAllocate32` calls made. -/
def MapBufferStep (alloc : Nat → Nat → Nat) (st : DevState) (e : Nat × Nat)
    (obj : Object) : DevState × (Nat × Nat) × List (Nat × Nat) :=
  let step :=
    if obj.dma_map_addr = 0 then
      ({ obj with dma_map_addr := alloc obj.addr obj.size % 4294967296 },
       [(obj.addr, obj.size)])
    else (obj, [])
  let obj1 := step.1
  let st1 : DevState := { st with objects := updateObj st.objects e.1 obj1 }
  if obj1.dma_map_addr = 0 then (st1, e, step.2)
  else
    ({ st1 with
        mappings :=
          AddBufferMap st1.mappings obj1.dma_map_addr obj1.size obj1.addr
            obj1.allocated },
     (e.1, obj1.dma_map_addr), step.2)

/-- Outcome of the MapBuffer entry loop: either some entry's handle failed to
resolve (the state mutated so far and the allocation calls made so far are
kept), or the loop finished with the updated entries. -/
inductive MapLoopOut
  | invalid (st : DevState) (allocs : List (Nat × Nat))
  | done (st : DevState) (entries : List (Nat × Nat))
      (allocs : List (Nat × Nat))

/-- The entry loop of MapBuffer. -/
def MapBufferLoop (alloc : Nat → Nat → Nat) (st : DevState) :
    List (Nat × Nat) → MapLoopOut
  | [] => .done st [] []
  | e :: rest =>
    match st.objects e.1 with
    | none => .invalid st []
    | some obj =>
      match MapBufferLoop alloc (MapBufferStep alloc st e obj).1 rest with
      | .invalid s cs => .invalid s ((MapBufferStep alloc st e obj).2.2 ++ cs)
      | .done s es cs =>
          .done s ((MapBufferStep alloc st e obj).2.1 :: es)
            ((MapBufferStep alloc st e obj).2.2 ++ cs)

/-- MapBuffer. Decodes the header and entry array, runs the entry loop; on an
unresolved handle performs the over-reading output copy and returns
InvalidInput; otherwise writes the header and the updated entry array back
and returns Success. Also yields the `MapAllocate32` calls made. -/
def MapBuffer (alloc : Nat → Nat → Nat) (st : DevState) (input output : Buf) :
    Option (Nat × Buf × DevState × List (Nat × Nat)) :=
  match decodeMapHeader input with
  | none => none
  | some n =>
    match SpliceVectors input n 2 1 with
    | none => none
    | some (ws, _) =>
      match MapBufferLoop alloc st (toEntries ws) with
      | .invalid st1 calls =>
        match overreadParams [n] output with
        | none => none
        | some out => some (NvErrCodes.InvalidInput, out, st1, calls)
      | .done st1 es calls =>
        match WriteVectors output [n] 0 with
        | none => none
        | some (o1, _) =>
          match WriteVectors o1 (entryWords es) 1 with
          | none => none
          | some (o2, _) => some (NvErrCodes.Success, o2, st1, calls)

/-- Loop body of UnmapBuffer for one resolved entry: `RemoveBufferMap` on the
object's `dma_map_addr`; an engaged result (even size 0) forwards
`gpu.MemoryManager().Unmap(dma_map_addr, size)`, an empty one is only logged;
then the object's `dma_map_addr` is zeroed. Returns the new state and the
Unmap calls made. -/
def UnmapStep (st : DevState) (e : Nat × Nat) (obj : Object) :
    DevState × List (Nat × Nat) :=
  let r := RemoveBufferMap st.mappings obj.dma_map_addr
  ({ objects := updateObj st.objects e.1 { obj with dma_map_addr := 0 },
     mappings := r.2 },
   match r.1 with
   | some size => [(obj.dma_map_addr, size)]
   | none => [])

/-- Outcome of the UnmapBuffer entry loop. -/
inductive UnmapLoopOut
  | invalid (st : DevState) (unmaps : List (Nat × Nat))
  | done (st : DevState) (unmaps : List (Nat × Nat))

/-- The entry loop of UnmapBuffer. -/
def UnmapLoop (st : DevState) : List (Nat × Nat) → UnmapLoopOut
  | [] => .done st []
  | e :: rest =>
    match st.objects e.1 with
    | none => .invalid st []
    | some obj =>
      match UnmapLoop (UnmapStep st e obj).1 rest with
      | .invalid s cs => .invalid s ((UnmapStep st e obj).2 ++ cs)
      | .done s cs => .done s ((UnmapStep st e obj).2 ++ cs)

/-- UnmapBuffer. Decodes the header and entry array, runs the entry loop; on
an unresolved handle performs the over-reading output copy and returns
InvalidInput; otherwise `memset`s the whole output buffer to zero and
returns Success. Also yields the Unmap calls forwarded to the GPU. -/
def UnmapBuffer (st : DevState) (input output : Buf) :
    Option (Nat × Buf × DevState × List (Nat × Nat)) :=
  match decodeMapHeader input with
  | none => none
  | some n =>
    match SpliceVectors input n 2 1 with
    | none => none
    | some (ws, _) =>
      match UnmapLoop st (toEntries ws) with
      | .invalid st1 calls =>
        match overreadParams [n] output with
        | none => none
        | some out => some (NvErrCodes.InvalidInput, out, st1, calls)
      | .done st1 calls =>
          some (NvErrCodes.Success, List.replicate output.length 0, st1, calls)

/-- The session state an entry-loop outcome carries, whichever constructor. -/
def MapLoopOut.state : MapLoopOut → DevState
  | .invalid s _ => s
  | .done s _ _ => s

/-- The session state an unmap-loop outcome carries. -/
def UnmapLoopOut.state : UnmapLoopOut → DevState
  | .invalid s _ => s
  | .done s _ => s

/-- The buffer-address-map invariant of C10: entries are keyed by strictly
increasing device address, each entry's key is the stored mapping's start
address, and each mapping's end address is its start plus its size. -/
def WFmap (ms : Mappings) : Prop :=
  SortedKeys ms ∧
    ∀ e ∈ ms, e.1 = e.2.StartAddr ∧ e.2.EndAddr = e.2.StartAddr + e.2.Size

/-- Concrete object for the C6 witness. -/
def c6obj : Object := ⟨1000, 256, 42, true⟩

/-- Concrete session state for the C6 witness. -/
def c6st : DevState := ⟨fun x => if x = 4 then some c6obj else none, []⟩

/-- Concrete object for the C8 witness: never mapped. -/
def c8obj : Object := ⟨500, 64, 0, true⟩

/-- Concrete session state for the C8 witness. -/
def c8st : DevState :=
  ⟨fun x => if x = 6 then some c8obj else none, [(9, ⟨9, 4, 0, false⟩)]⟩

/-- Concrete session state for the C9 witness: one mapped and one unmapped
object. -/
def c9st : DevState :=
  ⟨fun x =>
      if x = 2 then some ⟨100, 10, 7, true⟩
      else if x = 5 then some ⟨200, 20, 0, false⟩ else none,
   [(7, ⟨7, 10, 100, true⟩)]⟩

/-- Concrete session state for the C10 witness MapBuffer run. -/
def c10st : DevState :=
  ⟨fun x => if x = 3 then some ⟨32768, 4096, 0, true⟩ else none, []⟩

/-- Concrete session state for the C10 witness UnmapBuffer run. -/
def c10st2 : DevState :=
  ⟨fun x => if x = 3 then some ⟨32768, 4096, 77, false⟩ else none,
   [(77, ⟨77, 4096, 32768, false⟩)]⟩

theorem lookupKey_insertSorted_self (ms : Mappings) (k : Nat) (v : BufferMap) :
    lookupKey (insertSorted ms k v) k = some v := by
  induction ms with
  | nil => simp [insertSorted, lookupKey]
  | cons e rest ih =>
    by_cases h1 : k < e.1
    · simp [insertSorted, h1, lookupKey]
    · by_cases h2 : k = e.1
      · simp [insertSorted, h1, h2, lookupKey]
      · have h3 : ¬ e.1 = k := fun h => h2 h.symm
        simp [insertSorted, h1, h2, lookupKey, h3, ih]

theorem mem_insertSorted {x : Nat × BufferMap} (ms : Mappings) (k : Nat)
    (v : BufferMap) (hx : x ∈ insertSorted ms k v) : x = (k, v) ∨ x ∈ ms := by
  induction ms with
  | nil => simpa [insertSorted] using hx
  | cons e rest ih =>
    by_cases h1 : k < e.1
    · simp only [insertSorted, if_pos h1, List.mem_cons] at hx
      rcases hx with h | h | h
      · exact Or.inl h
      · exact Or.inr (List.mem_cons.mpr (Or.inl h))
      · exact Or.inr (List.mem_cons.mpr (Or.inr h))
    · by_cases h2 : k = e.1
      · simp only [insertSorted, if_neg h1, if_pos h2, List.mem_cons] at hx
        rcases hx with h | h
        · exact Or.inl h
        · exact Or.inr (List.mem_cons.mpr (Or.inr h))
      · simp only [insertSorted, if_neg h1, if_neg h2, List.mem_cons] at hx
        rcases hx with h | h
        · right
          simp [h]
        · rcases ih h with h | h
          · exact Or.inl h
          · right
            simp [h]

theorem sortedKeys_insertSorted (ms : Mappings) (k : Nat) (v : BufferMap)
    (hs : SortedKeys ms) : SortedKeys (insertSorted ms k v) := by
  induction ms with
  | nil => simp [insertSorted, SortedKeys]
  | cons e rest ih =>
    rw [SortedKeys, List.pairwise_cons] at hs
    obtain ⟨he, hrest⟩ := hs
    by_cases h1 : k < e.1
    · rw [SortedKeys]
      simp only [insertSorted, if_pos h1]
      refine List.Pairwise.cons ?_ (List.Pairwise.cons he hrest)
      intro b hb
      rcases List.mem_cons.mp hb with h | h
      · rw [h]
        exact h1
      · exact lt_trans h1 (he b h)
    · by_cases h2 : k = e.1
      · rw [SortedKeys]
        simp only [insertSorted, if_neg h1, if_pos h2]
        refine List.Pairwise.cons ?_ hrest
        intro b hb
        rw [h2]
        exact he b hb
      · have h3 : e.1 < k := by omega
        rw [SortedKeys]
        simp only [insertSorted, if_neg h1, if_neg h2]
        refine List.Pairwise.cons ?_ (ih hrest)
        intro b hb
        rcases mem_insertSorted rest k v hb with h | h
        · rw [h]
          exact h3
        · exact he b h

theorem removeKey_sublist (ms : Mappings) (k : Nat) :
    List.Sublist (removeKey ms k) ms := by
  induction ms with
  | nil => exact List.Sublist.refl []
  | cons e rest ih =>
    by_cases h1 : e.1 = k
    · simp only [removeKey, if_pos h1]
      exact List.sublist_cons_self e rest
    · simp only [removeKey, if_neg h1]
      exact List.Sublist.cons₂ e ih

theorem sortedKeys_removeKey (ms : Mappings) (k : Nat) (hs : SortedKeys ms) :
    SortedKeys (removeKey ms k) :=
  List.Pairwise.sublist (removeKey_sublist ms k) hs

theorem lookupKey_eq_none_of_not_mem (ms : Mappings) (k : Nat)
    (h : k ∉ ms.map Prod.fst) : lookupKey ms k = none := by
  induction ms with
  | nil => rfl
  | cons e rest ih =>
    simp only [List.map_cons, List.mem_cons] at h
    push_neg at h
    have h1 : ¬ e.1 = k := fun hk => h.1 hk.symm
    simp [lookupKey, h1, ih h.2]

theorem lookupKey_removeKey_self (ms : Mappings) (k : Nat)
    (hs : SortedKeys ms) : lookupKey (removeKey ms k) k = none := by
  induction ms with
  | nil => rfl
  | cons e rest ih =>
    rw [SortedKeys, List.pairwise_cons] at hs
    obtain ⟨he, hrest⟩ := hs
    by_cases h1 : e.1 = k
    · simp only [removeKey, if_pos h1]
      apply lookupKey_eq_none_of_not_mem
      intro hk
      obtain ⟨b, hb, hbk⟩ := List.mem_map.mp hk
      have := he b hb
      omega
    · simp only [removeKey, if_neg h1, lookupKey, if_neg h1]
      exact ih hrest

theorem sortedKeys_nodup_keys (ms : Mappings) (hs : SortedKeys ms) :
    (ms.map Prod.fst).Nodup := by
  show (ms.map Prod.fst).Pairwise (· ≠ ·)
  refine List.pairwise_map.mpr ?_
  exact hs.imp fun h => Nat.ne_of_lt h

theorem wfmap_add (ms : Mappings) (g s c : Nat) (b : Bool) (hwf : WFmap ms) :
    WFmap (AddBufferMap ms g s c b) := by
  obtain ⟨hs, hk⟩ := hwf
  refine ⟨sortedKeys_insertSorted ms g _ hs, ?_⟩
  intro e he
  rcases mem_insertSorted ms g _ he with h | h
  · rw [h]
    exact ⟨rfl, rfl⟩
  · exact hk e h

theorem wfmap_removeKey (ms : Mappings) (k : Nat) (hwf : WFmap ms) :
    WFmap (removeKey ms k) := by
  obtain ⟨hs, hk⟩ := hwf
  refine ⟨sortedKeys_removeKey ms k hs, ?_⟩
  intro e he
  exact hk e (List.Sublist.subset (removeKey_sublist ms k) he)

theorem wfmap_remove (ms : Mappings) (k : Nat) (hwf : WFmap ms) :
    WFmap (RemoveBufferMap ms k).2 := by
  rw [RemoveBufferMap]
  cases lookupKey ms k with
  | none => exact hwf
  | some m => exact wfmap_removeKey ms k hwf

theorem wfmap_mapStep (alloc : Nat → Nat → Nat) (st : DevState)
    (e : Nat × Nat) (obj : Object) (hwf : WFmap st.mappings) :
    WFmap (MapBufferStep alloc st e obj).1.mappings := by
  rw [MapBufferStep]
  by_cases h0 : obj.dma_map_addr = 0
  · simp only [h0, if_pos rfl]
    by_cases h1 : alloc obj.addr obj.size % 4294967296 = 0
    · simpa [h1] using hwf
    · simpa [h1] using wfmap_add st.mappings _ _ _ _ hwf
  · simp only [if_neg h0, h0]
    simpa [if_neg h0] using wfmap_add st.mappings _ _ _ _ hwf

theorem wfmap_mapLoop (alloc : Nat → Nat → Nat) (es : List (Nat × Nat))
    (st : DevState) (hwf : WFmap st.mappings) :
    WFmap (MapBufferLoop alloc st es).state.mappings := by
  induction es generalizing st with
  | nil => exact hwf
  | cons e rest ih =>
    rw [MapBufferLoop]
    cases hobj : st.objects e.1 with
    | none => exact hwf
    | some obj =>
      have hstep := wfmap_mapStep alloc st e obj hwf
      have := ih (MapBufferStep alloc st e obj).1 hstep
      cases hrec : MapBufferLoop alloc (MapBufferStep alloc st e obj).1 rest with
      | invalid s cs =>
          rw [hrec] at this
          simpa [hrec] using this
      | done s es2 cs =>
          rw [hrec] at this
          simpa [hrec] using this

theorem wfmap_unmapStep (st : DevState) (e : Nat × Nat) (obj : Object)
    (hwf : WFmap st.mappings) : WFmap (UnmapStep st e obj).1.mappings :=
  wfmap_remove st.mappings obj.dma_map_addr hwf

theorem wfmap_unmapLoop (es : List (Nat × Nat)) (st : DevState)
    (hwf : WFmap st.mappings) :
    WFmap (UnmapLoop st es).state.mappings := by
  induction es generalizing st with
  | nil => exact hwf
  | cons e rest ih =>
    rw [UnmapLoop]
    cases hobj : st.objects e.1 with
    | none => exact hwf
    | some obj =>
      have hstep := wfmap_unmapStep st e obj hwf
      have := ih (UnmapStep st e obj).1 hstep
      cases hrec : UnmapLoop (UnmapStep st e obj).1 rest with
      | invalid s cs =>
          rw [hrec] at this
          simpa [hrec] using this
      | done s cs =>
          rw [hrec] at this
          simpa [hrec] using this

theorem wfmap_MapBuffer (alloc : Nat → Nat → Nat) (st : DevState)
    (input output : Buf) (r : Nat × Buf × DevState × List (Nat × Nat))
    (hwf : WFmap st.mappings) (h : MapBuffer alloc st input output = some r) :
    WFmap r.2.2.1.mappings := by
  rw [MapBuffer] at h
  cases hd : decodeMapHeader input with
  | none => simp only [hd] at h; exact Option.noConfusion h
  | some n =>
    simp only [hd] at h
    cases hs : SpliceVectors input n 2 1 with
    | none => simp only [hs] at h; exact Option.noConfusion h
    | some ws =>
      obtain ⟨w, o⟩ := ws
      simp only [hs] at h
      have hloop := wfmap_mapLoop alloc (toEntries w) st hwf
      cases hl : MapBufferLoop alloc st (toEntries w) with
      | invalid s cs =>
        rw [hl] at hloop
        simp only [hl] at h
        cases ho : overreadParams [n] output with
        | none => simp only [ho] at h; exact Option.noConfusion h
        | some out =>
          simp only [ho, Option.some.injEq] at h
          rw [← h]
          exact hloop
      | done s es cs =>
        rw [hl] at hloop
        simp only [hl] at h
        cases hw1 : WriteVectors output [n] 0 with
        | none => simp only [hw1] at h; exact Option.noConfusion h
        | some o1 =>
          obtain ⟨o1b, o1o⟩ := o1
          simp only [hw1] at h
          cases hw2 : WriteVectors o1b (entryWords es) 1 with
          | none => simp only [hw2] at h; exact Option.noConfusion h
          | some o2 =>
            obtain ⟨o2b, o2o⟩ := o2
            simp only [hw2, Option.some.injEq] at h
            rw [← h]
            exact hloop

theorem wfmap_UnmapBuffer (st : DevState) (input output : Buf)
    (r : Nat × Buf × DevState × List (Nat × Nat)) (hwf : WFmap st.mappings)
    (h : UnmapBuffer st input output = some r) : WFmap r.2.2.1.mappings := by
  rw [UnmapBuffer] at h
  cases hd : decodeMapHeader input with
  | none => simp only [hd] at h; exact Option.noConfusion h
  | some n =>
    simp only [hd] at h
    cases hs : SpliceVectors input n 2 1 with
    | none => simp only [hs] at h; exact Option.noConfusion h
    | some ws =>
      obtain ⟨w, o⟩ := ws
      simp only [hs] at h
      have hloop := wfmap_unmapLoop (toEntries w) st hwf
      cases hl : UnmapLoop st (toEntries w) with
      | invalid s cs =>
        rw [hl] at hloop
        simp only [hl] at h
        cases ho : overreadParams [n] output with
        | none => simp only [ho] at h; exact Option.noConfusion h
        | some out =>
          simp only [ho, Option.some.injEq] at h
          rw [← h]
          exact hloop
      | done s cs =>
        rw [hl] at hloop
        simp only [hl, Option.some.injEq] at h
        rw [← h]
        exact hloop

theorem unmapLoop_done (es : List (Nat × Nat)) (st : DevState)
    (hres : ∀ e ∈ es, (st.objects e.1).isSome) :
    ∃ st1 cs, UnmapLoop st es = .done st1 cs := by
  induction es generalizing st with
  | nil => exact ⟨st, [], rfl⟩
  | cons e rest ih =>
    have he := hres e (List.mem_cons_self e rest)
    obtain ⟨obj, hobj⟩ := Option.isSome_iff_exists.mp he
    have hres1 : ∀ x ∈ rest, ((UnmapStep st e obj).1.objects x.1).isSome := by
      intro x hx
      have hx1 := hres x (List.mem_cons_of_mem e hx)
      by_cases hxe : x.1 = e.1
      · simp [UnmapStep, updateObj, hxe]
      · simpa [UnmapStep, updateObj, hxe] using hx1
    obtain ⟨st1, cs, hrec⟩ := ih (UnmapStep st e obj).1 hres1
    refine ⟨st1, (UnmapStep st e obj).2 ++ cs, ?_⟩
    simp only [UnmapLoop, hobj, hrec]

theorem unmapLoop_preserves_zero (es : List (Nat × Nat)) (st st1 : DevState)
    (cs : List (Nat × Nat)) (h : Nat) (hdone : UnmapLoop st es = .done st1 cs)
    (hz : ∃ o, st.objects h = some o ∧ o.dma_map_addr = 0) :
    ∃ o, st1.objects h = some o ∧ o.dma_map_addr = 0 := by
  induction es generalizing st cs with
  | nil =>
    rw [UnmapLoop] at hdone
    cases hdone
    exact hz
  | cons e rest ih =>
    rw [UnmapLoop] at hdone
    cases hobj : st.objects e.1 with
    | none => simp only [hobj] at hdone; exact absurd hdone (by simp)
    | some obj =>
      simp only [hobj] at hdone
      cases hrec : UnmapLoop (UnmapStep st e obj).1 rest with
      | invalid s cs2 => simp only [hrec] at hdone; exact absurd hdone (by simp)
      | done s cs2 =>
        simp only [hrec] at hdone
        cases hdone
        refine ih (UnmapStep st e obj).1 cs2 hrec ?_
        by_cases hhe : h = e.1
        · exact ⟨{ obj with dma_map_addr := 0 }, by simp [UnmapStep, updateObj, hhe], rfl⟩
        · obtain ⟨o, ho, hoz⟩ := hz
          exact ⟨o, by simpa [UnmapStep, updateObj, hhe] using ho, hoz⟩

theorem unmapLoop_zeroes (es : List (Nat × Nat)) (st st1 : DevState)
    (cs : List (Nat × Nat)) (hdone : UnmapLoop st es = .done st1 cs) :
    ∀ h ∈ es.map Prod.fst, ∃ o, st1.objects h = some o ∧ o.dma_map_addr = 0 := by
  induction es generalizing st cs with
  | nil => intro h hh; exact absurd hh (by simp)
  | cons e rest ih =>
    intro h hh
    rw [UnmapLoop] at hdone
    cases hobj : st.objects e.1 with
    | none => simp only [hobj] at hdone; exact absurd hdone (by simp)
    | some obj =>
      simp only [hobj] at hdone
      cases hrec : UnmapLoop (UnmapStep st e obj).1 rest with
      | invalid s cs2 => simp only [hrec] at hdone; exact absurd hdone (by simp)
      | done s cs2 =>
        simp only [hrec] at hdone
        cases hdone
        rw [List.map_cons] at hh
        rcases List.mem_cons.mp hh with hhe | hhr
        · refine unmapLoop_preserves_zero rest (UnmapStep st e obj).1 _ cs2 h hrec ?_
          exact ⟨{ obj with dma_map_addr := 0 },
            by simp [UnmapStep, updateObj, hhe], rfl⟩
        · exact ih (UnmapStep st e obj).1 cs2 hrec h hhr

/-- C1: the claim says a submit input shorter than header plus the declared
trailing arrays is rejected with a malformed-request failure before any
out-of-bounds read. The code does no such check: with cmd_buffer_count = 1
and an input holding only the 16-byte header, SpliceVectors memcpys past the
end of the input, which is undefined behavior (modelled as none), not a
status-code rejection. -/
theorem C1_submit_short_input_ub :
    Submit 1 1 1 ⟨fun _ => none, []⟩ [1, 0, 0, 0] (List.replicate 16 0) =
      none := rfl

/-- C2: the claim says find returns not-found when no live range contains the
address. In the code FindBufferMap never produces an empty optional: on the
map holding only [10, 15), find 15 fails the assert and dereferences the
past-the-end iterator (undefined behavior), and with a second entry [30, 40)
present, find 25 returns that non-containing entry; containment hits (find
12) do return the right mapping. -/
theorem C2_find_miss_not_notfound :
    FindBufferMap [(10, ⟨10, 5, 0, false⟩)] 12 =
      FindResult.ok ⟨10, 5, 0, false⟩ ∧
    FindBufferMap [(10, ⟨10, 5, 0, false⟩)] 15 = FindResult.assertUB ∧
    FindBufferMap [(10, ⟨10, 5, 0, false⟩), (30, ⟨30, 10, 0, false⟩)] 25 =
      FindResult.ok ⟨30, 10, 0, false⟩ :=
  ⟨rfl, rfl, rfl⟩

/-- C3 counterexample: a submit whose only descriptor's handle resolves to an
object with dma_map_addr 5 while the buffer map is empty. The lookup finds no
mapping (the scan ends at the failing assert), yet Submit does not return
status 0 with a re-encoded output as the claim says: the run is undefined
behavior and produces nothing. -/
theorem C3_counterexample :
    FindBufferMap ([] : Mappings) 5 = FindResult.assertUB ∧
    Submit 1 1 1 ⟨fun h => if h = 7 then some ⟨256, 16, 5, true⟩ else none, []⟩
      [1, 0, 0, 0, 7, 0, 4] (List.replicate 16 0) = none :=
  ⟨rfl, rfl⟩

/-- C3 amended: when a descriptor's handle resolves but the buffer-map scan
of the object's dma_map_addr ends past the last entry (no containing range
and no key above the address), Submit is undefined behavior: it fails the
FindBufferMap assert and dereferences end, producing no status and writing
nothing to the output; the log-and-return-0 branch is unreachable because
FindBufferMap never yields an empty optional. -/
theorem C3_amended_missing_mapping_ub (relocW syncW fenceW cbid coff cwc : Nat)
    (st : DevState) (output : Buf) (obj : Object)
    (hobj : st.objects cbid = some obj)
    (hfind : FindBufferMap st.mappings obj.dma_map_addr =
      FindResult.assertUB) :
    Submit relocW syncW fenceW st [1, 0, 0, 0, cbid, coff, cwc] output =
      none := by
  simp [Submit, decodeSubmitHeader, SpliceVectors, toCmdBufs, SubmitLoop,
    hobj, hfind]

/-- Witness for the amended C3 at a concrete state and input. -/
theorem C3_amended_witness :
    (DevState.mk (fun h => if h = 9 then some ⟨64, 8, 3, false⟩ else none)
        []).objects 9 = some ⟨64, 8, 3, false⟩ ∧
    FindBufferMap ([] : Mappings) 3 = FindResult.assertUB ∧
    Submit 2 2 2
      ⟨fun h => if h = 9 then some ⟨64, 8, 3, false⟩ else none, []⟩
      [1, 0, 0, 0, 9, 1, 2] [0, 0, 0, 0, 0, 0, 0] = none := by
  refine ⟨rfl, rfl, ?_⟩
  exact C3_amended_missing_mapping_ub 2 2 2 9 1 2 _ _ ⟨64, 8, 3, false⟩ rfl rfl

/-- C4: the claim says an unresolvable handle makes map-buffer and
unmap-buffer write the decoded header back verbatim and return -22. The
return value and the stop-at-first-entry are right, but the write-back is
memcpy(output.data(), params, output.size()): with the usual output buffer of
header plus one entry (three words) it reads eight bytes past the one-word
header struct, which is undefined behavior (modelled as none). -/
theorem C4_unresolved_handle_overread :
    MapBuffer (fun _ _ => 0) ⟨fun _ => none, []⟩ [1, 7, 0]
      (List.replicate 3 0) = none ∧
    UnmapBuffer ⟨fun _ => none, []⟩ [1, 7, 0] (List.replicate 3 0) = none :=
  ⟨rfl, rfl⟩

/-- C5: for any input carrying the two-word record and any output that can
hold it, get-syncpoint and get-waitbase return Success and write back the
input's param word followed by a hard-coded 0 value word. -/
theorem C5_get_syncpoint_waitbase_value_zero (input output : Buf)
    (hin : 2 ≤ input.length) (hout : 2 ≤ output.length) :
    GetSyncpoint input output =
      some (NvErrCodes.Success, [input.getD 0 0, 0] ++ output.drop 2) ∧
    GetWaitbase input output =
      some (NvErrCodes.Success, [input.getD 0 0, 0] ++ output.drop 2) := by
  have hw : WriteVectors output [input.getD 0 0, 0] 0 =
      some ([input.getD 0 0, 0] ++ output.drop 2, 2) := by
    simp [WriteVectors, hout]
  constructor
  · rw [GetSyncpoint, if_pos hin, hw]
  · rw [GetWaitbase, if_pos hin, hw]

/-- Witness for C5 at concrete buffers. -/
theorem C5_witness :
    2 ≤ ([9, 3] : Buf).length ∧ 2 ≤ ([5, 5, 5] : Buf).length ∧
    GetSyncpoint [9, 3] [5, 5, 5] = some (NvErrCodes.Success, [9, 0, 5]) ∧
    GetWaitbase [9, 3] [5, 5, 5] = some (NvErrCodes.Success, [9, 0, 5]) := by
  refine ⟨by decide, by decide, ?_, ?_⟩
  · exact (C5_get_syncpoint_waitbase_value_zero [9, 3] [5, 5, 5]
      (by decide) (by decide)).1
  · exact (C5_get_syncpoint_waitbase_value_zero [9, 3] [5, 5, 5]
      (by decide) (by decide)).2

/-- C6: when a map-buffer entry resolves to an object whose dma_map_addr is
already non-zero, the loop body makes no MapAllocate32 call, reports the
existing address in the entry, and leaves the object as it was; running the
body again from the resulting state (a second map-buffer with no intervening
unmap) again allocates nothing and reports the same address. -/
theorem C6_remap_reuses_address (alloc : Nat → Nat → Nat) (st : DevState)
    (h a : Nat) (obj : Object) (_hobj : st.objects h = some obj)
    (hnz : obj.dma_map_addr ≠ 0) :
    (MapBufferStep alloc st (h, a) obj).2.2 = [] ∧
    (MapBufferStep alloc st (h, a) obj).2.1 = (h, obj.dma_map_addr) ∧
    (MapBufferStep alloc st (h, a) obj).1.objects h = some obj ∧
    (MapBufferStep alloc (MapBufferStep alloc st (h, a) obj).1
      (h, a) obj).2.2 = [] ∧
    (MapBufferStep alloc (MapBufferStep alloc st (h, a) obj).1
      (h, a) obj).2.1 = (h, obj.dma_map_addr) := by
  refine ⟨?_, ?_, ?_, ?_, ?_⟩ <;> simp [MapBufferStep, hnz, updateObj]

/-- Witness for C6 at a concrete state: the object is mapped at 42. -/
theorem C6_witness :
    c6st.objects 4 = some c6obj ∧ c6obj.dma_map_addr ≠ 0 ∧
    ((MapBufferStep (fun _ _ => 7) c6st (4, 0) c6obj).2.2 = [] ∧
     (MapBufferStep (fun _ _ => 7) c6st (4, 0) c6obj).2.1 =
       (4, c6obj.dma_map_addr) ∧
     (MapBufferStep (fun _ _ => 7) c6st (4, 0) c6obj).1.objects 4 =
       some c6obj ∧
     (MapBufferStep (fun _ _ => 7)
       (MapBufferStep (fun _ _ => 7) c6st (4, 0) c6obj).1 (4, 0) c6obj).2.2 =
       [] ∧
     (MapBufferStep (fun _ _ => 7)
       (MapBufferStep (fun _ _ => 7) c6st (4, 0) c6obj).1 (4, 0) c6obj).2.1 =
       (4, c6obj.dma_map_addr)) := by
  refine ⟨rfl, by decide, ?_⟩
  exact C6_remap_reuses_address (fun _ _ => 7) c6st 4 0 c6obj rfl (by decide)

/-- C7: insert_or_replace at address A followed by remove A returns the size
S exactly when is_allocated was true and size 0 otherwise, and in both cases
the entry at A is deleted; for every key-sorted map state. -/
theorem C7_add_remove_roundtrip (ms : Mappings) (A S C : Nat) (b : Bool)
    (hs : SortedKeys ms) :
    (RemoveBufferMap (AddBufferMap ms A S C b) A).1 =
      some (if b then S else 0) ∧
    lookupKey (RemoveBufferMap (AddBufferMap ms A S C b) A).2 A = none := by
  have h1 := lookupKey_insertSorted_self ms A ⟨A, S, C, b⟩
  constructor
  · simp only [AddBufferMap, RemoveBufferMap, h1, BufferMap.IsAllocated,
      BufferMap.Size]
  · simp only [AddBufferMap, RemoveBufferMap, h1]
    exact lookupKey_removeKey_self _ A (sortedKeys_insertSorted ms A _ hs)

/-- Witness for C7 on a concrete map. -/
theorem C7_witness :
    SortedKeys [(2, (⟨2, 9, 0, true⟩ : BufferMap))] ∧
    (RemoveBufferMap (AddBufferMap [(2, ⟨2, 9, 0, true⟩)] 5 100 7 true)
      5).1 = some 100 ∧
    lookupKey
      (RemoveBufferMap (AddBufferMap [(2, ⟨2, 9, 0, true⟩)] 5 100 7 true)
        5).2 5 = none := by
  have hs : SortedKeys [(2, (⟨2, 9, 0, true⟩ : BufferMap))] := by
    simp [SortedKeys]
  exact ⟨hs, C7_add_remove_roundtrip [(2, ⟨2, 9, 0, true⟩)] 5 100 7 true hs⟩

/-- C8: an unmap-buffer entry resolving to a never-mapped object
(dma_map_addr 0 with no map entry keyed 0) forwards no Unmap call, leaves
dma_map_addr 0 and the buffer map untouched, and the single-entry call
returns Success. -/
theorem C8_unmap_never_mapped (st : DevState) (h a : Nat) (obj : Object)
    (output : Buf) (hobj : st.objects h = some obj)
    (hz : obj.dma_map_addr = 0) (hno : lookupKey st.mappings 0 = none) :
    (UnmapStep st (h, a) obj).2 = [] ∧
    (UnmapStep st (h, a) obj).1.objects h =
      some { obj with dma_map_addr := 0 } ∧
    (UnmapStep st (h, a) obj).1.mappings = st.mappings ∧
    UnmapBuffer st [1, h, a] output =
      some (NvErrCodes.Success, List.replicate output.length 0,
        (UnmapStep st (h, a) obj).1, []) := by
  have hrm : RemoveBufferMap st.mappings obj.dma_map_addr =
      (none, st.mappings) := by
    rw [hz, RemoveBufferMap, hno]
  refine ⟨?_, ?_, ?_, ?_⟩
  · simp [UnmapStep, hrm]
  · simp [UnmapStep, updateObj]
  · simp [UnmapStep, hrm]
  · simp [UnmapBuffer, decodeMapHeader, SpliceVectors, toEntries, UnmapLoop,
      UnmapStep, hobj, hrm]

/-- Witness for C8 at a concrete state. -/
theorem C8_witness :
    c8st.objects 6 = some c8obj ∧ c8obj.dma_map_addr = 0 ∧
    lookupKey c8st.mappings 0 = none ∧
    ((UnmapStep c8st (6, 0) c8obj).2 = [] ∧
     (UnmapStep c8st (6, 0) c8obj).1.objects 6 =
       some { c8obj with dma_map_addr := 0 } ∧
     (UnmapStep c8st (6, 0) c8obj).1.mappings = c8st.mappings ∧
     UnmapBuffer c8st [1, 6, 0] [0, 0, 0] =
       some (NvErrCodes.Success, List.replicate ([0, 0, 0] : Buf).length 0,
         (UnmapStep c8st (6, 0) c8obj).1, [])) := by
  refine ⟨rfl, rfl, rfl, ?_⟩
  exact C8_unmap_never_mapped c8st 6 0 c8obj [0, 0, 0] rfl rfl rfl

/-- C9: when every entry handle of an unmap-buffer call resolves, the call
returns Success, zero-fills the entire output buffer, and afterwards every
processed entry's object has dma_map_addr 0. -/
theorem C9_unmap_zeroes_all (st : DevState) (input output : Buf) (n : Nat)
    (hn : decodeMapHeader input = some n) (hlen : 1 + n * 2 ≤ input.length)
    (hres : ∀ e ∈ toEntries ((input.drop 1).take (n * 2)),
      (st.objects e.1).isSome) :
    ∃ st1 calls,
      UnmapBuffer st input output =
        some (NvErrCodes.Success, List.replicate output.length 0, st1,
          calls) ∧
      ∀ h ∈ (toEntries ((input.drop 1).take (n * 2))).map Prod.fst,
        ∃ o, st1.objects h = some o ∧ o.dma_map_addr = 0 := by
  obtain ⟨st1, cs, hdone⟩ := unmapLoop_done _ st hres
  refine ⟨st1, cs, ?_, unmapLoop_zeroes _ st st1 cs hdone⟩
  have hsv : SpliceVectors input n 2 1 =
      some ((input.drop 1).take (n * 2), 1 + n * 2) := by
    simp [SpliceVectors, hlen]
  simp only [UnmapBuffer, hn, hsv, hdone]

/-- Witness for C9: two entries, one mapped and one never mapped. -/
theorem C9_witness :
    decodeMapHeader [2, 2, 0, 5, 0] = some 2 ∧
    1 + 2 * 2 ≤ ([2, 2, 0, 5, 0] : Buf).length ∧
    (∀ e ∈ toEntries ((([2, 2, 0, 5, 0] : Buf).drop 1).take (2 * 2)),
      (c9st.objects e.1).isSome) ∧
    (∃ st1 calls,
      UnmapBuffer c9st [2, 2, 0, 5, 0] [9, 9, 9] =
        some (NvErrCodes.Success,
          List.replicate ([9, 9, 9] : Buf).length 0, st1, calls) ∧
      ∀ h ∈ (toEntries ((([2, 2, 0, 5, 0] : Buf).drop 1).take
          (2 * 2))).map Prod.fst,
        ∃ o, st1.objects h = some o ∧ o.dma_map_addr = 0) := by
  refine ⟨rfl, by decide, by decide, ?_⟩
  exact C9_unmap_zeroes_all c9st [2, 2, 0, 5, 0] [9, 9, 9] 2 rfl
    (by decide) (by decide)

/-- C10: the buffer-address-map invariant: every entry's key equals the
stored mapping's StartAddr, every EndAddr is StartAddr + Size, and keys are
strictly sorted, hence duplicate-free (at most one entry per device
address); it is preserved by AddBufferMap, RemoveBufferMap, and the
MapBuffer and UnmapBuffer operations built on them. -/
theorem C10_invariant_preserved (ms : Mappings) (g s c q : Nat) (b : Bool)
    (alloc : Nat → Nat → Nat) (st st2 : DevState)
    (input output input2 output2 : Buf)
    (r1 r2 : Nat × Buf × DevState × List (Nat × Nat))
    (hms : WFmap ms) (hst : WFmap st.mappings) (hst2 : WFmap st2.mappings)
    (h1 : MapBuffer alloc st input output = some r1)
    (h2 : UnmapBuffer st2 input2 output2 = some r2) :
    WFmap (AddBufferMap ms g s c b) ∧
    WFmap (RemoveBufferMap ms q).2 ∧
    WFmap r1.2.2.1.mappings ∧
    WFmap r2.2.2.1.mappings ∧
    ((AddBufferMap ms g s c b).map Prod.fst).Nodup ∧
    (r1.2.2.1.mappings.map Prod.fst).Nodup ∧
    (r2.2.2.1.mappings.map Prod.fst).Nodup := by
  have hA := wfmap_add ms g s c b hms
  have hR := wfmap_remove ms q hms
  have hM := wfmap_MapBuffer alloc st input output r1 hst h1
  have hU := wfmap_UnmapBuffer st2 input2 output2 r2 hst2 h2
  exact ⟨hA, hR, hM, hU, sortedKeys_nodup_keys _ hA.1,
    sortedKeys_nodup_keys _ hM.1, sortedKeys_nodup_keys _ hU.1⟩

/-- Witness for C10 at concrete states with successful MapBuffer and
UnmapBuffer runs. -/
theorem C10_witness :
    WFmap [(2, (⟨2, 9, 0, true⟩ : BufferMap))] ∧ WFmap c10st.mappings ∧
    WFmap c10st2.mappings ∧
    ∃ r1 r2,
      MapBuffer (fun _ _ => 512) c10st [1, 3, 0] [0, 0, 0] = some r1 ∧
      UnmapBuffer c10st2 [1, 3, 0] [0, 0, 0] = some r2 ∧
      (WFmap (AddBufferMap [(2, ⟨2, 9, 0, true⟩)] 5 100 7 true) ∧
       WFmap (RemoveBufferMap [(2, ⟨2, 9, 0, true⟩)] 2).2 ∧
       WFmap r1.2.2.1.mappings ∧ WFmap r2.2.2.1.mappings ∧
       ((AddBufferMap [(2, ⟨2, 9, 0, true⟩)] 5 100 7 true).map
         Prod.fst).Nodup ∧
       (r1.2.2.1.mappings.map Prod.fst).Nodup ∧
       (r2.2.2.1.mappings.map Prod.fst).Nodup) := by
  have hms : WFmap [(2, (⟨2, 9, 0, true⟩ : BufferMap))] := by
    constructor
    · simp [SortedKeys]
    · decide
  have hempty : WFmap c10st.mappings := by
    constructor
    · simp [SortedKeys, c10st]
    · decide
  have hc2 : WFmap c10st2.mappings := by
    constructor
    · simp [SortedKeys, c10st2]
    · decide
  refine ⟨hms, hempty, hc2, ?_⟩
  exact ⟨_, _, rfl, rfl,
    C10_invariant_preserved [(2, ⟨2, 9, 0, true⟩)] 5 100 7 2 true
      (fun _ _ => 512) c10st c10st2 [1, 3, 0] [0, 0, 0] [1, 3, 0] [0, 0, 0]
      _ _ hms hempty hc2 rfl rfl⟩

end Nvdec
